import Mathlib

/-!
# TheTinyClaude: `Interface/chatGPT.c`

The source file declares four functions, `fw`, `gw`, `fxyz` and `gxyz`.  Each
body is a list of local declarations whose initialisers are string literals
and (multi-)character constants that spell algebraic formulas.

This development embeds

* the C fragment the file is written in (expressions, declarations, function
  bodies) together with a state-passing semantics of a call;
* the four functions, transcribed declaration by declaration;
* a reader that turns the text of the literals into summands
  (coefficient, base, exponent) so that the shape of the formulas can be
  stated and checked;
* the expression evaluator that the specification describes (the source has
  no such function; it is modelled from the specification).
-/

namespace TinyClaude

/-! ## The C fragment -/

/-- Expressions that can occur in an initialiser: a character constant
(`'a'`, `'x1^5'`), a string literal, an identifier, a sum, a product. -/
inductive CExpr where
  | chr (s : String)
  | str (s : String)
  | var (n : String)
  | add (l r : CExpr)
  | mul (l r : CExpr)
deriving DecidableEq, Repr

instance : Add CExpr := ⟨CExpr.add⟩
instance : Mul CExpr := ⟨CExpr.mul⟩

/-- The declaration specifier written in front of a local: `const` (an
automatic object) or `static`. -/
inductive Storage where
  | const
  | static
deriving DecidableEq, Repr

/-- Statements of a function body. The source only ever uses declarations;
`assign` (`x = e;`) and `ret` (`return e;`) are the statement forms through
which a body could change an object or hand a value to its caller, and no body
of the file has either. -/
inductive Stmt where
  | decl (st : Storage) (name : String) (init : CExpr)
  | assign (name : String) (e : CExpr)
  | ret (e : CExpr)
deriving DecidableEq, Repr

/-- Declared result type of a function. -/
inductive RetType where
  | void
  | signed
  | unsigned
deriving DecidableEq, Repr

/-- A function definition: result type, name, (K&R style) parameter names and
body. -/
structure CFun where
  ret : RetType
  name : String
  params : List String
  body : List Stmt
deriving DecidableEq, Repr

/-! ## The four functions of `Interface/chatGPT.c` -/

/-- Source lines 2-9, `void fw(w1,w2,w3)`. -/
def fw : CFun :=
  ⟨.void, "fw", ["w1", "w2", "w3"],
   [ .decl .const "fw1" (.str "'w1x1' + 'w1y1' + 'w1z1' + a"),
     .decl .const "fw2" (.str "'w2x2' + 'w2y2' + 'w2z2' + b"),
     .decl .const "fw3" (.str "'w3x1' + 'w3y1' + 'w3z1' + c"),
     .decl .const "fw4" (.str "'w1'x2' + 'w1'y2' + 'w1'z2' + d"),
     .decl .const "fw5" (.str "'w2'x1' + 'w2'y1' + 'w2'z1' + e"),
     .decl .const "fw6" (.str "'w3'x2' + 'w3'y2' + 'w3'z2' + f") ]⟩

/-- Source lines 11-18, `void gw(w1,w2,w3)`. -/
def gw : CFun :=
  ⟨.void, "gw", ["w1", "w2", "w3"],
   [ .decl .const "gw1" (.str "'w1 ^ 7' + a * 'w1 ^ 3' + b * 'w1 ^ 2' + c * 'w1' + A"),
     .decl .const "gw2" (.str "'w2 ^ 7' + a * 'w2 ^ 3' + b * 'w2 ^ 2' + c * 'w2' + B"),
     .decl .const "gw3" (.str "'w3 ^ 7' + a * 'w3 ^ 3' + b * 'w3 ^ 2' + c * 'w3' + C"),
     .decl .const "gw4" (.str "'w1' ^ 7' + d * 'w1' ^ 3' + e * 'w1' ^ 2' + f * 'w1'' + D"),
     .decl .const "gw5" (.str "'w2' ^ 7' + d * 'w2' ^ 3' + e * 'w2' ^ 2' + f * 'w2'' + E"),
     .decl .const "gw6" (.str "'w3' ^ 7' + d * 'w3' ^ 3' + e * 'w3' ^ 2' + f * 'w3'' + F") ]⟩

/-- Character constant, written `c "x1"` for the source's `'x1'`. -/
abbrev c (s : String) : CExpr := .chr s

/-- String literal, written `s "..."` for the source's `"..."`. -/
abbrev s (t : String) : CExpr := .str t

/-- Source lines 21-28, `signed fxyz()`. -/
def fxyz : CFun :=
  ⟨.signed, "fxyz", [],
   [ .decl .static "fx1" (c "a" * c "x1" + c "b" * c "x1" + c "c" * c "x1" + c "d" * c "x1" + c "e" * c "x1" + c "f" * c "w1"),
     .decl .static "fx2" (c "a" * c "x2" + c "b" * c "x2" + c "c" * c "x2" + c "d" * c "x2" + c "e" * c "x2" + c "f" * c "w2"),
     .decl .static "fy1" (c "a" * c "y1" + c "b" * c "y1" + c "c" * c "y1" + c "d" * c "y1" + c "e" * c "y1" + c "f" * c "w3"),
     .decl .static "fy2" (c "a" * c "y2" + c "b" * c "y2" + c "c" * c "y2" + c "d" * c "y2" + c "e" * c "y2" + s "'f' * w1'"),
     .decl .static "fz1" (c "a" * c "z1" + c "b" * c "z1" + c "c" * c "z1" + c "d" * c "x1" + c "e" * c "y1" + s "'f' * w2'"),
     .decl .static "fz2" (c "a" * c "z2" + c "b" * c "z2" + c "c" * c "z2" + c "d" * c "z2" + c "e" * c "z2" + s "'f' * w3'") ]⟩

/-- Source lines 30-37, `unsigned gxyz()`. -/
def gxyz : CFun :=
  ⟨.unsigned, "gxyz", [],
   [ .decl .static "gx1" (c "A" * c "x1^5" + c "B" * c "x1^4" + c "C" * c "x1^3" + c "D" * c "x1^2" + c "E" * c "x1" + c "w1"),
     .decl .static "gx2" (c "A" * c "x2^5" + c "B" * c "x2^4" + c "C" * c "x2^3" + c "D" * c "x2^2" + c "E" * c "x2" + c "w2"),
     .decl .static "gy1" (c "A" * c "y1^5" + c "B" * c "y1^4" + c "C" * c "y1^3" + c "D" * c "y1^2" + c "E" * c "y1" + c "w3"),
     .decl .static "gy2" (c "A" * c "y2^5" + c "B" * c "y2^4" + c "C" * c "y2^3" + c "D" * c "y2^2" + c "E" * c "y2" + s "w1'"),
     .decl .static "gz1" (c "A" * c "z1^5" + c "B" * c "z1^4" + c "C" * c "z1^3" + c "D" * c "x1^2" + c "E" * c "y1" + s "w2'"),
     .decl .static "gz2" (c "A" * c "z2^5" + c "B" * c "z2^4" + c "C" * c "z2^3" + c "D" * c "z2^2" + c "E" * c "z2" + s "w3'") ]⟩

/-- The translation unit: the four functions in source order. -/
def program : List CFun := [fw, gw, fxyz, gxyz]

/-! ## Reading the literals as formulas

The literals spell sums of products.  Inside a string literal the summands are
separated by ` + `, the factors of a summand by ` * `, and a factor may be
wrapped in single quotes.  A factor is a run of names (a letter followed by
digits and primes, so `w1'x2` is the two names `w1'` and `x2`), optionally
followed by `^` and a decimal exponent. -/

/-- The single quote character. -/
def quote : Char := Char.ofNat 39

/-- Splits at every occurrence of blank, `op`, blank; `cur` holds the piece
read so far, reversed. -/
def splitOp (op : Char) : List Char → List Char → List (List Char)
  | cur, [] => [cur.reverse]
  | cur, a :: b :: d :: rest =>
    if a = ' ' ∧ b = op ∧ d = ' ' then cur.reverse :: splitOp op [] rest
    else splitOp op (a :: cur) (b :: d :: rest)
  | cur, a :: rest => splitOp op (a :: cur) rest

/-- Removes one pair of enclosing single quotes, when the text has them. -/
def unquote (cs : List Char) : List Char :=
  match cs with
  | [] => []
  | a :: rest => if a = quote ∧ rest.getLast? = some quote then rest.dropLast else cs

/-- Splits a run of names: a new name starts at every letter. -/
def splitNames (cur : List Char) : List Char → List String
  | [] => if cur.isEmpty then [] else [String.mk cur.reverse]
  | a :: rest =>
    if a.isAlpha ∧ ¬ cur.isEmpty then String.mk cur.reverse :: splitNames [a] rest
    else splitNames (a :: cur) rest

/-- Value of a decimal numeral; `none` when it is empty or has a non-digit. -/
def readNat (ds : List Char) : Option Nat :=
  if ds.isEmpty ∨ ¬ ds.all Char.isDigit then none
  else some (ds.foldl (fun n d => 10 * n + (d.toNat - 48)) 0)

/-- A factor, read: the names it juxtaposes and its exponent, if it has one. -/
structure Factor where
  names : List String
  exp : Option Nat
deriving DecidableEq, Repr

/-- Reads one (unquoted) factor: blanks are dropped, the part before `^` is a
run of names, the part after it a numeral. -/
def readFactor (cs : List Char) : Option Factor :=
  let body := cs.filter (fun a => a ≠ ' ')
  let ns := body.takeWhile (fun a => a ≠ '^')
  match body.dropWhile (fun a => a ≠ '^') with
  | [] => some ⟨splitNames [] ns, none⟩
  | _ :: ds => (readNat ds).map (fun k => ⟨splitNames [] ns, some k⟩)

/-- A summand of a formula: a lone name (a constant), or a monomial with an
optional coefficient name, a base name and an exponent. -/
inductive Summand where
  | const (n : String)
  | mono (coef : Option String) (base : String) (exp : Nat)
deriving DecidableEq, Repr

/-- Assembles the factors of one product into a summand. A lone name without
exponent is a constant; a lone name with exponent is a monomial without
coefficient; two names are coefficient and base, the exponent defaulting
to 1. Anything else is not a summand. -/
def toSummand (fs : List Factor) : Option Summand :=
  let ns := (fs.map Factor.names).flatten
  let e := (fs.filterMap Factor.exp).getLast?
  match ns, e with
  | [n], none => some (.const n)
  | [n], some k => some (.mono none n k)
  | [a, x], none => some (.mono (some a) x 1)
  | [a, x], some k => some (.mono (some a) x k)
  | _, _ => none

/-- Reads the text of a string literal as a list of summands. -/
def readText (t : String) : Option (List Summand) :=
  (splitOp '+' [] t.toList).mapM (fun p =>
    ((splitOp '*' [] p).mapM (fun f => readFactor (unquote f))).bind toSummand)

/-- The operands of a left-nested sum, in source order. -/
def CExpr.summands : CExpr → List CExpr
  | .add l r => l.summands ++ [r]
  | e => [e]

/-- The operands of a left-nested product, in source order. -/
def CExpr.factors : CExpr → List CExpr
  | .mul l r => l.factors ++ [r]
  | e => [e]

/-- Reads one operand of a sum: a string literal is read as text, a product of
character constants factor by factor. -/
def readOperand (e : CExpr) : Option (List Summand) :=
  match e with
  | .str t => readText t
  | _ =>
    ((e.factors.mapM (fun (f : CExpr) =>
        match f with
        | .chr t => readFactor t.toList
        | _ => none)).bind toSummand).map (fun x => [x])

/-- Reads an initialiser as a formula: the summands of all its operands. -/
def readInit (e : CExpr) : Option (List Summand) :=
  (e.summands.mapM readOperand).map List.flatten

/-- Initialisers of the declarations of a body, with the declared names. -/
def inits : List Stmt → List (String × CExpr)
  | [] => []
  | .decl _ n e :: rest => (n, e) :: inits rest
  | .assign _ _ :: rest => inits rest
  | .ret _ :: rest => inits rest

/-- The formulas a function declares, read from its initialisers. -/
def formulas (f : CFun) : List (String × Option (List Summand)) :=
  (inits f.body).map (fun p => (p.1, readInit p.2))

/-- Exponents of the monomials of a formula, in order. -/
def exponents (r : List Summand) : List Nat :=
  r.filterMap (fun (x : Summand) => match x with | .mono _ _ k => some k | .const _ => none)

/-- Coefficient names of the monomials of a formula, in order. -/
def coefficients (r : List Summand) : List (Option String) :=
  r.filterMap (fun (x : Summand) => match x with | .mono a _ _ => some a | .const _ => none)

/-- Base names of the monomials of a formula, in order. -/
def bases (r : List Summand) : List String :=
  r.filterMap (fun (y : Summand) => match y with | .mono _ x _ => some x | .const _ => none)

/-- Constant summands of a formula, in order. -/
def constants (r : List Summand) : List String :=
  r.filterMap (fun (x : Summand) => match x with | .const n => some n | .mono _ _ _ => none)

/-- Degree of a formula: its largest exponent. -/
def degree (r : List Summand) : Nat := (exponents r).foldl max 0


/-! ## Values, integer arithmetic and calls -/

/-- Value of a (multi-)character constant: the character codes packed
big-endian in base 256, so `'a'` is 97 and `'x1'` is `0x7831`. -/
def charConst (t : String) : Int :=
  t.toList.foldl (fun acc ch => acc * 256 + (ch.toNat : Int)) 0

/-- Least value of a 32-bit `int`. -/
def INT_MIN : Int := -(2 ^ 31)

/-- Greatest value of a 32-bit `int`. -/
def INT_MAX : Int := 2 ^ 31 - 1

/-- Representable in a signed 32-bit `int`. -/
def inInt (n : Int) : Prop := INT_MIN ≤ n ∧ n ≤ INT_MAX

instance (n : Int) : Decidable (inInt n) := by
  unfold inInt; exact inferInstance

/-- An expression built from character constants, `+` and `*` only. -/
def CExpr.pureInt : CExpr → Bool
  | .chr _ => true
  | .str _ => false
  | .var _ => false
  | .add l r => l.pureInt && r.pureInt
  | .mul l r => l.pureInt && r.pureInt

/-- Exact (unbounded) integer value of a pure integer expression. -/
def CExpr.exact : CExpr → Option Int
  | .chr t => some (charConst t)
  | .str _ => none
  | .var _ => none
  | .add l r =>
    match l.exact, r.exact with
    | some a, some b => some (a + b)
    | _, _ => none
  | .mul l r =>
    match l.exact, r.exact with
    | some a, some b => some (a * b)
    | _, _ => none

/-- All subexpressions, operands first: for a left-nested sum of products
these are the constants, the products and the partial sums. -/
def CExpr.subexprs : CExpr → List CExpr
  | .add l r => l.subexprs ++ r.subexprs ++ [.add l r]
  | .mul l r => l.subexprs ++ r.subexprs ++ [.mul l r]
  | e => [e]

/-- The character constants occurring in an expression, in source order. -/
def CExpr.chars : CExpr → List String
  | .chr t => [t]
  | .add l r => l.chars ++ r.chars
  | .mul l r => l.chars ++ r.chars
  | _ => []

/-- The products of an expression whose right factor is a character constant
of four characters (`'A' * 'x1^5'`), in source order. -/
def CExpr.wideProducts (e : CExpr) : List CExpr :=
  e.subexprs.filter (fun (x : CExpr) =>
    match x with
    | .mul _ (.chr t) => decide (t.toList.length = 4)
    | _ => false)

/-- The exact value of the expression is an integer above `INT_MAX`. -/
def CExpr.exceedsIntMax (e : CExpr) : Bool :=
  match e.exact with
  | some v => decide (INT_MAX < v)
  | none => false

/-- The expression evaluates without overflow: the exact value of every
subexpression is representable in `int`. -/
def CExpr.fits (e : CExpr) : Bool :=
  e.subexprs.all (fun (x : CExpr) =>
    match x.exact with
    | some v => decide (inInt v)
    | none => false)

/-- Run-time values: an `int`, or a pointer into a string literal. -/
inductive Val where
  | int (n : Int)
  | ptr (lit : String) (off : Int)
deriving DecidableEq, Repr

/-- Named objects with their values: the static memory of the program, or
the automatic objects of one call. -/
abbrev Mem := List (String × Val)

/-- Replaces the value of `n` when `n` is present. -/
def Mem.write (m : Mem) (n : String) (v : Val) : Mem :=
  m.map (fun p => if p.1 = n then (n, v) else p)

/-- Evaluates an expression; `none` when it has no defined value (an unknown
identifier, signed overflow, arithmetic on two pointers). -/
def evalExpr (fr σ : Mem) : CExpr → Option Val
  | .chr t => some (.int (charConst t))
  | .str t => some (.ptr t 0)
  | .var n => (fr.lookup n).orElse (fun _ => σ.lookup n)
  | .add l r =>
    match evalExpr fr σ l, evalExpr fr σ r with
    | some (.int a), some (.int b) => if inInt (a + b) then some (.int (a + b)) else none
    | some (.ptr t o), some (.int b) => some (.ptr t (o + b))
    | some (.int a), some (.ptr t o) => some (.ptr t (o + a))
    | _, _ => none
  | .mul l r =>
    match evalExpr fr σ l, evalExpr fr σ r with
    | some (.int a), some (.int b) => if inInt (a * b) then some (.int (a * b)) else none
    | _, _ => none

/-- Runs a body from static memory `σ` and automatic objects `fr`; the result
is the static memory afterwards and the value handed to the caller, if a
`return` was executed. A `const` declaration creates an automatic object that
lives until the body ends; a `static` declaration has no run-time action, its
object being initialised before the program starts. -/
def execBody : Mem → Mem → List Stmt → Mem × Option Val
  | σ, _, [] => (σ, none)
  | σ, fr, .decl .const n e :: rest =>
    match evalExpr fr σ e with
    | some v => execBody σ ((n, v) :: fr) rest
    | none => execBody σ fr rest
  | σ, fr, .decl .static _ _ :: rest => execBody σ fr rest
  | σ, fr, .assign n e :: rest =>
    match evalExpr fr σ e with
    | some v =>
      if (fr.lookup n).isSome then execBody σ (Mem.write fr n v) rest
      else execBody (Mem.write σ n v) fr rest
    | none => execBody σ fr rest
  | σ, fr, .ret e :: _ => (σ, evalExpr fr σ e)

/-- Calls `f` with integer arguments in static memory `σ`. -/
def call (f : CFun) (args : List Int) (σ : Mem) : Mem × Option Val :=
  execBody σ (f.params.zip (args.map Val.int)) f.body

/-- Identifiers an expression reads. -/
def CExpr.reads : CExpr → List String
  | .var n => [n]
  | .add l r => l.reads ++ r.reads
  | .mul l r => l.reads ++ r.reads
  | _ => []

/-- Identifiers a statement reads. -/
def Stmt.reads : Stmt → List String
  | .decl _ _ e => e.reads
  | .assign _ e => e.reads
  | .ret e => e.reads

/-- The statement is a declaration. -/
def Stmt.isDecl : Stmt → Bool
  | .decl _ _ _ => true
  | _ => false

/-- The coordinate a declaration is named after: the name without its first
letter (`fx1` and `gx1` are named after `x1`). -/
def coordinate (name : String) : String := String.mk (name.toList.drop 1)

/-- The first five summands of a formula are monomials over one and the same
base `x`. -/
def firstFiveOver (x : String) (r : List Summand) : Bool :=
  decide (bases (r.take 5) = [x, x, x, x, x])

/-! ## The expression evaluator of the specification

The source has no evaluator: none of the four functions computes anything.
The definitions of this section follow sections 3, 4.1 and 7 of the
specification. Numbers are exact rationals. -/

/-- Modelled from the spec: the failure taxonomy of section 7; the source has
no evaluator and no error type. -/
inductive EvalError where
  | MissingVariable
  | InvalidExponent
deriving DecidableEq, Repr

/-- Modelled from the spec: a Term of section 3, a coefficient variable name,
a base variable name and an integer exponent; the source has no such type. -/
structure Term where
  coefficient : String
  base : String
  exponent : Int
deriving DecidableEq, Repr

/-- Modelled from the spec: a Formula of section 3, an ordered sequence of
Terms plus a constant-offset variable name; the source has no such type. -/
structure Formula where
  terms : List Term
  offset : String
deriving DecidableEq, Repr

/-- Modelled from the spec: a Variable Binding of section 3, a mapping from
variable names to numbers with unique keys; the source has no such type. The
values are exact rationals here; `FBindings` has the floating-point values. -/
abbrev Bindings := String → Option ℚ

/-- Modelled from the spec: the variable names a formula references, those of
its terms in order and then the offset (section 3, Invariant). -/
def Formula.names (f : Formula) : List String :=
  (f.terms.map (fun t => [t.coefficient, t.base])).flatten ++ [f.offset]

/-- Modelled from the spec: reading one name from the bindings, which fails
with MissingVariable when the name is absent (section 4.1). -/
def fetch (b : Bindings) (n : String) : Except EvalError ℚ :=
  match b n with
  | some v => .ok v
  | none => .error .MissingVariable

/-- Modelled from the spec: the power computation, which fails with
InvalidExponent when the exponent is negative and the base value is zero
(section 4.1). -/
def power (x : ℚ) (k : Int) : Except EvalError ℚ :=
  if k < 0 ∧ x = 0 then .error .InvalidExponent else .ok (x ^ k)

/-- Modelled from the spec: the value of one term,
`bindings[coefficient] * bindings[base]^exponent` (section 4.1). -/
def evalTerm (b : Bindings) (t : Term) : Except EvalError ℚ :=
  match fetch b t.coefficient with
  | .error e => .error e
  | .ok a =>
    match fetch b t.base with
    | .error e => .error e
    | .ok x =>
      match power x t.exponent with
      | .error e => .error e
      | .ok p => .ok (a * p)

/-- Modelled from the spec: the running sum over the terms, in order, starting
from `acc`; the first failing term ends the evaluation (section 4.1). -/
def sumTerms (b : Bindings) : ℚ → List Term → Except EvalError ℚ
  | acc, [] => .ok acc
  | acc, t :: ts =>
    match evalTerm b t with
    | .error e => .error e
    | .ok v => sumTerms b (acc + v) ts

/-- Modelled from the spec: `evaluate(formula, bindings)` of section 4.1; the
source has no such function. The input constraint that the bindings supply
every referenced name is checked first, so an absent name is reported as
MissingVariable whatever the terms are; then the terms are summed and the
offset is added. -/
def evaluate (f : Formula) (b : Bindings) : Except EvalError ℚ :=
  if f.names.all (fun n => (b n).isSome) then
    match sumTerms b 0 f.terms with
    | .error e => .error e
    | .ok sum =>
      match fetch b f.offset with
      | .error e => .error e
      | .ok d => .ok (sum + d)
  else .error .MissingVariable

/-- The number a binding gives a name, 0 for an absent name. -/
def valueOf (b : Bindings) (n : String) : ℚ := (b n).getD 0

/-- The bindings `{a:2, x:3, d:1}` of the specification's example. -/
def exampleBindings : Bindings := fun n =>
  if n = "a" then some 2 else if n = "x" then some 3 else if n = "d" then some 1 else none

/-- The formula `[(a, x, 1)]` with offset `d` of the specification's example. -/
def exampleFormula : Formula := ⟨[⟨"a", "x", 1⟩], "d"⟩

/-! ## Floating-point bindings

Section 3 of the specification binds names to floating-point values. Such a
value can be an infinity or a NaN, and a finite product or power can exceed
the largest finite value of the format. The definitions below follow the
evaluator above step by step over values of this kind. -/

/-- Modelled from the spec: a floating-point value of section 3, a finite
number, an infinity with its sign, or a NaN; the source has no number type.
Finite values are kept exact: rounding to the precision of the format and the
sign of zero are not represented. -/
inductive FVal where
  | fin (q : ℚ)
  | inf (negative : Bool)
  | nan
deriving DecidableEq, Repr

/-- The result of an operation whose exact value is `q`: an infinity when `q`
lies beyond the largest finite value `M`. -/
def FVal.ofExact (M q : ℚ) : FVal :=
  if M < q then .inf false else if q < -M then .inf true else .fin q

/-- Floating-point product: zero times an infinity is NaN. -/
def FVal.mul (M : ℚ) (x y : FVal) : FVal :=
  match x, y with
  | .fin a, .fin b => FVal.ofExact M (a * b)
  | .fin a, .inf n => if a = 0 then .nan else .inf (xor n (decide (a < 0)))
  | .inf n, .fin b => if b = 0 then .nan else .inf (xor n (decide (b < 0)))
  | .inf m, .inf n => .inf (xor m n)
  | _, _ => .nan

/-- Floating-point sum: infinities of opposite sign add up to NaN. -/
def FVal.add (M : ℚ) (x y : FVal) : FVal :=
  match x, y with
  | .fin a, .fin b => FVal.ofExact M (a + b)
  | .fin _, .inf n => .inf n
  | .inf n, .fin _ => .inf n
  | .inf m, .inf n => if m = n then .inf m else .nan
  | _, _ => .nan

/-- C5. The four functions are stubs: a call to `fw` or `gw`, for any arguments
`w1 w2 w3` and any static memory, leaves the memory as it was and hands no value
to the caller, so the outcome is the same for any two argument triples; the
same holds for `fxyz` and `gxyz`; and every statement of the four bodies is a
declaration whose initialiser reads no identifier, so no declared literal is
returned, assigned to an object of the caller or read again. -/
theorem stubs_have_no_effect :
    (∀ (w1 w2 w3 : Int) (σ : Mem),
        call fw [w1, w2, w3] σ = (σ, none) ∧ call gw [w1, w2, w3] σ = (σ, none)) ∧
    (∀ (w1 w2 w3 v1 v2 v3 : Int) (σ : Mem),
        call fw [w1, w2, w3] σ = call fw [v1, v2, v3] σ ∧
        call gw [w1, w2, w3] σ = call gw [v1, v2, v3] σ) ∧
    (∀ (σ : Mem), call fxyz [] σ = (σ, none) ∧ call gxyz [] σ = (σ, none)) ∧
    (∀ f ∈ program, ∀ st ∈ f.body, st.isDecl = true ∧ st.reads = []) := by
  refine ⟨fun _ _ _ _ => ⟨rfl, rfl⟩, fun _ _ _ _ _ _ _ => ⟨rfl, rfl⟩,
    fun _ => ⟨rfl, rfl⟩, ?_⟩
  decide

/-- C7. The six literals of `gw` read, in order, as
`v^7 + p*v^3 + q*v^2 + r*v + K` over a single weight `v` (`w1`, `w2`, `w3`,
`w1'`, `w2'`, `w3'`), with coefficients `a b c` for `gw1..gw3` and `d e f` for
`gw4..gw6` and constants `A .. F`; every one of them has degree 7. -/
theorem gw_degree7_family :
    formulas gw =
      [ ("gw1", some [.mono none "w1" 7, .mono (some "a") "w1" 3, .mono (some "b") "w1" 2,
                      .mono (some "c") "w1" 1, .const "A"]),
        ("gw2", some [.mono none "w2" 7, .mono (some "a") "w2" 3, .mono (some "b") "w2" 2,
                      .mono (some "c") "w2" 1, .const "B"]),
        ("gw3", some [.mono none "w3" 7, .mono (some "a") "w3" 3, .mono (some "b") "w3" 2,
                      .mono (some "c") "w3" 1, .const "C"]),
        ("gw4", some [.mono none "w1'" 7, .mono (some "d") "w1'" 3, .mono (some "e") "w1'" 2,
                      .mono (some "f") "w1'" 1, .const "D"]),
        ("gw5", some [.mono none "w2'" 7, .mono (some "d") "w2'" 3, .mono (some "e") "w2'" 2,
                      .mono (some "f") "w2'" 1, .const "E"]),
        ("gw6", some [.mono none "w3'" 7, .mono (some "d") "w3'" 3, .mono (some "e") "w3'" 2,
                      .mono (some "f") "w3'" 1, .const "F"]) ] ∧
    (∀ p ∈ formulas gw,
        p.2.map exponents = some [7, 3, 2, 1] ∧ p.2.map degree = some 7) := by
  decide

/-- C8. Each of the six formulas of `gxyz` has six summands: five monomials
with coefficients `A B C D E` and exponents `5 4 3 2 1` in that order,
followed by one constant, the weight `w1`, `w2`, `w3`, `w1'`, `w2'`, `w3'`
respectively; every formula has degree 5. -/
theorem gxyz_degree5_family :
    (formulas gxyz).map Prod.fst = ["gx1", "gx2", "gy1", "gy2", "gz1", "gz2"] ∧
    (∀ p ∈ formulas gxyz,
        p.2.map List.length = some 6 ∧
        p.2.map (fun r => coefficients (r.take 5)) =
          some [some "A", some "B", some "C", some "D", some "E"] ∧
        p.2.map (fun r => exponents (r.take 5)) = some [5, 4, 3, 2, 1] ∧
        p.2.map degree = some 5) ∧
    (formulas gxyz).map (fun p => p.2.bind List.getLast?) =
      [ some (.const "w1"), some (.const "w2"), some (.const "w3"),
        some (.const "w1'"), some (.const "w2'"), some (.const "w3'") ] := by
  decide

/-- C9, evaluated on the source. Ten of the twelve formulas of `fxyz` and
`gxyz` have their first five terms over the coordinate they are named after;
`fz1` and `gz1` do not: their fourth term is over `x1` and their fifth over
`y1`. -/
theorem fz1_gz1_mix_coordinates :
    ((formulas fxyz ++ formulas gxyz).filter
        (fun p => p.2.map (firstFiveOver (coordinate p.1)) != some true)).map
      (fun p => (p.1, p.2.map (fun r => bases (r.take 5)))) =
      [ ("fz1", some ["z1", "z1", "z1", "x1", "y1"]),
        ("gz1", some ["z1", "z1", "z1", "x1", "y1"]) ] := by
  decide

/-- C10 as stated fails: `gx1` is a pure integer initialiser of `gxyz`, and
its first product `'A' * 'x1^5'` has the exact value 65 * 2016501301 =
131072584565, which is not representable in a signed 32-bit `int`. -/
theorem gx1_product_overflows :
    ("gx1", c "A" * c "x1^5" + c "B" * c "x1^4" + c "C" * c "x1^3" + c "D" * c "x1^2"
        + c "E" * c "x1" + c "w1") ∈ inits gxyz.body ∧
    (c "A" * c "x1^5" + c "B" * c "x1^4" + c "C" * c "x1^3" + c "D" * c "x1^2"
        + c "E" * c "x1" + c "w1").pureInt = true ∧
    (c "A").exact = some 65 ∧ (c "x1^5").exact = some 2016501301 ∧
    (c "A" * c "x1^5").exact = some 131072584565 ∧ ¬ inInt 131072584565 ∧
    (c "A" * c "x1^5" + c "B" * c "x1^4" + c "C" * c "x1^3" + c "D" * c "x1^2"
        + c "E" * c "x1" + c "w1").fits = false := by
  decide

/-- C10, amended. With multi-character constants packed big-endian in base
256 (`'a'` = 97, `'x1'` = 0x7831, `'x1^5'` = 0x78315E35), the static
initialisers of `fxyz` and `gxyz` that are pure integer expressions are those
of `fx1`, `fx2`, `fy1`, `gx1`, `gx2`, `gy1`; the three of `fxyz` evaluate
without overflow in signed 32-bit arithmetic (every constant, product and
partial sum is in range), `fx1` to 495*30769 + 102*30513 = 18342981; the three
of `gxyz` do not: each of their character constants is in range, but each has
four products with a four-character constant and the exact value of every one
of these products is above 2^31 - 1. -/
theorem pure_int_initialisers_range :
    charConst "a" = 97 ∧ charConst "x1" = 0x7831 ∧ charConst "x1^5" = 0x78315E35 ∧
    ((inits fxyz.body ++ inits gxyz.body).filter (fun p => p.2.pureInt)).map Prod.fst =
      ["fx1", "fx2", "fy1", "gx1", "gx2", "gy1"] ∧
    (∀ p ∈ inits fxyz.body, p.2.pureInt = true → p.2.fits = true) ∧
    (inits fxyz.body).head?.map (fun p => (p.1, p.2.exact)) =
      some ("fx1", some (495 * 30769 + 102 * 30513)) ∧
    (495 * 30769 + 102 * 30513 : Int) = 18342981 ∧
    (∀ p ∈ inits gxyz.body, p.2.pureInt = true →
        p.2.fits = false ∧
        (∀ t ∈ p.2.chars, inInt (charConst t)) ∧
        p.2.wideProducts.length = 4 ∧
        (∀ x ∈ p.2.wideProducts, x.exceedsIntMax = true)) ∧
    ((inits gxyz.body).filter (fun p => p.2.pureInt)).map
        (fun p => (p.1, p.2.wideProducts.map CExpr.exact)) =
      [ ("gx1", [some (65 * 0x78315E35), some (66 * 0x78315E34), some (67 * 0x78315E33),
                 some (68 * 0x78315E32)]),
        ("gx2", [some (65 * 0x78325E35), some (66 * 0x78325E34), some (67 * 0x78325E33),
                 some (68 * 0x78325E32)]),
        ("gy1", [some (65 * 0x79315E35), some (66 * 0x79315E34), some (67 * 0x79315E33),
                 some (68 * 0x79315E32)]) ] := by
  refine ⟨by decide, by decide, by decide, by decide, by decide, by decide, by decide, ?_, ?_⟩
  · decide
  · decide

/-! ## Theorems about the evaluator -/

theorem names_all_iff (f : Formula) (b : Bindings) :
    f.names.all (fun n => (b n).isSome) = true ↔
      (∀ t ∈ f.terms, (b t.coefficient).isSome = true ∧ (b t.base).isSome = true) ∧
        (b f.offset).isSome = true := by
  simp only [Formula.names, List.all_eq_true, List.mem_append, List.mem_flatten, List.mem_map,
    List.mem_singleton]
  constructor
  · intro h
    refine ⟨fun t ht => ⟨?_, ?_⟩, h _ (Or.inr rfl)⟩
    · exact h _ (Or.inl ⟨_, ⟨t, ht, rfl⟩, by simp⟩)
    · exact h _ (Or.inl ⟨_, ⟨t, ht, rfl⟩, by simp⟩)
  · rintro ⟨h1, h2⟩ n (⟨l, ⟨t, ht, rfl⟩, hn⟩ | rfl)
    · simp only [List.mem_cons, List.mem_singleton, List.not_mem_nil, or_false] at hn
      rcases hn with rfl | rfl
      · exact (h1 t ht).1
      · exact (h1 t ht).2
    · exact h2

theorem evalTerm_ok {b : Bindings} {t : Term}
    (hc : (b t.coefficient).isSome = true) (hb : (b t.base).isSome = true)
    (hk : ¬ (t.exponent < 0 ∧ b t.base = some 0)) :
    evalTerm b t = .ok (valueOf b t.coefficient * valueOf b t.base ^ t.exponent) := by
  obtain ⟨a, ha⟩ := Option.isSome_iff_exists.mp hc
  obtain ⟨x, hx⟩ := Option.isSome_iff_exists.mp hb
  have hk2 : ¬ (t.exponent < 0 ∧ x = 0) := by
    rintro ⟨h1, h2⟩
    exact hk ⟨h1, by rw [hx, h2]⟩
  simp [evalTerm, fetch, power, valueOf, ha, hx, hk2]

theorem evalTerm_invalid {b : Bindings} {t : Term}
    (hc : (b t.coefficient).isSome = true) (hk : t.exponent < 0 ∧ b t.base = some 0) :
    evalTerm b t = .error .InvalidExponent := by
  obtain ⟨a, ha⟩ := Option.isSome_iff_exists.mp hc
  simp [evalTerm, fetch, power, ha, hk.1, hk.2]

theorem sumTerms_invalid (b : Bindings) (ts : List Term) :
    ∀ acc : ℚ,
      (∀ t ∈ ts, (b t.coefficient).isSome = true ∧ (b t.base).isSome = true) →
      (∃ t ∈ ts, t.exponent < 0 ∧ b t.base = some 0) →
      sumTerms b acc ts = .error .InvalidExponent := by
  induction ts with
  | nil => intro acc _ h; obtain ⟨t, ht, _⟩ := h; cases ht
  | cons t ts ih =>
    intro acc hp hbad
    have h1 := hp t (List.mem_cons_self _ _)
    by_cases hk : t.exponent < 0 ∧ b t.base = some 0
    · rw [sumTerms, evalTerm_invalid h1.1 hk]
    · rw [sumTerms, evalTerm_ok h1.1 h1.2 hk]
      simp only
      apply ih _ (fun u hu => hp u (List.mem_cons_of_mem _ hu))
      obtain ⟨u, hu, hub⟩ := hbad
      rcases List.mem_cons.mp hu with rfl | hu2
      · exact absurd hub hk
      · exact ⟨u, hu2, hub⟩

theorem evalTerm_congr {b b2 : Bindings} {t : Term}
    (hc : b t.coefficient = b2 t.coefficient) (hb : b t.base = b2 t.base) :
    evalTerm b t = evalTerm b2 t := by
  simp [evalTerm, fetch, hc, hb]

theorem sumTerms_congr (b b2 : Bindings) (ts : List Term) :
    ∀ acc : ℚ,
      (∀ t ∈ ts, b t.coefficient = b2 t.coefficient ∧ b t.base = b2 t.base) →
      sumTerms b acc ts = sumTerms b2 acc ts := by
  induction ts with
  | nil => intro acc _; rfl
  | cons t ts ih =>
    intro acc h
    have h1 := h t (List.mem_cons_self _ _)
    rw [sumTerms, sumTerms, evalTerm_congr h1.1 h1.2]
    split
    · rfl
    · exact ih _ (fun u hu => h u (List.mem_cons_of_mem _ hu))

/-- C2. If a name referenced by a term, as coefficient or as base, or by the
offset is absent from the bindings, `evaluate` fails with MissingVariable and
returns no number; the formula `[(a, x, 1)]` with offset `d` under bindings
without an entry for `x` fails with MissingVariable. -/
theorem evaluate_missing_variable :
    (∀ (f : Formula) (b : Bindings),
        ((∃ t ∈ f.terms, b t.coefficient = none ∨ b t.base = none) ∨ b f.offset = none) →
        evaluate f b = .error .MissingVariable ∧ ∀ v, evaluate f b ≠ .ok v) ∧
    evaluate exampleFormula
        (fun n => if n = "a" then some 2 else if n = "d" then some 1 else none) =
      .error .MissingVariable := by
  have key : ∀ (f : Formula) (b : Bindings),
      ((∃ t ∈ f.terms, b t.coefficient = none ∨ b t.base = none) ∨ b f.offset = none) →
      evaluate f b = .error .MissingVariable := by
    intro f b h
    unfold evaluate
    rw [if_neg]
    intro hall
    obtain ⟨h1, h2⟩ := (names_all_iff f b).mp hall
    rcases h with ⟨t, ht, hc | hb⟩ | ho
    · have := (h1 t ht).1; rw [hc] at this; cases this
    · have := (h1 t ht).2; rw [hb] at this; cases this
    · rw [ho] at h2; cases h2
  refine ⟨fun f b h => ⟨key f b h, fun v hv => ?_⟩, ?_⟩
  · rw [key f b h] at hv; cases hv
  · exact key _ _ (Or.inl ⟨⟨"a", "x", 1⟩, by decide, Or.inr (by decide)⟩)

/-- C2 at a concrete input: the offset `d` is the absent name. -/
theorem evaluate_missing_variable_witness :
    evaluate exampleFormula (fun n => if n = "a" then some 2 else if n = "x" then some 3 else none)
      = .error .MissingVariable :=
  (evaluate_missing_variable.1 exampleFormula _ (Or.inr (by decide))).1

/-- C3. When the bindings supply every referenced name and some term has a
negative exponent with its base bound to zero, `evaluate` fails with
InvalidExponent; `[(a, x, -1)]` with offset `d` under `{a:2, x:0, d:1}` fails
with InvalidExponent. -/
theorem evaluate_invalid_exponent :
    (∀ (f : Formula) (b : Bindings),
        ((∀ t ∈ f.terms, (b t.coefficient).isSome = true ∧ (b t.base).isSome = true) ∧
          (b f.offset).isSome = true) →
        (∃ t ∈ f.terms, t.exponent < 0 ∧ b t.base = some 0) →
        evaluate f b = .error .InvalidExponent) ∧
    evaluate ⟨[⟨"a", "x", -1⟩], "d"⟩
        (fun n => if n = "a" then some 2 else if n = "x" then some 0
          else if n = "d" then some 1 else none) =
      .error .InvalidExponent := by
  have key : ∀ (f : Formula) (b : Bindings),
      ((∀ t ∈ f.terms, (b t.coefficient).isSome = true ∧ (b t.base).isSome = true) ∧
        (b f.offset).isSome = true) →
      (∃ t ∈ f.terms, t.exponent < 0 ∧ b t.base = some 0) →
      evaluate f b = .error .InvalidExponent := by
    intro f b hp hbad
    unfold evaluate
    rw [if_pos ((names_all_iff f b).mpr hp), sumTerms_invalid b f.terms 0 hp.1 hbad]
  exact ⟨key, key _ _ (by decide) ⟨⟨"a", "x", -1⟩, by decide, by decide, by decide⟩⟩

/-- C3 at a concrete input: the second of two terms is the one with exponent
-3 over a base bound to zero. -/
theorem evaluate_invalid_exponent_witness :
    evaluate ⟨[⟨"a", "x", 2⟩, ⟨"a", "y", -3⟩], "d"⟩
        (fun n => if n = "a" then some 2 else if n = "x" then some 3
          else if n = "y" then some 0 else if n = "d" then some 1 else none) =
      .error .InvalidExponent :=
  evaluate_invalid_exponent.1 _ _ (by decide) ⟨⟨"a", "y", -3⟩, by decide, by decide, by decide⟩

/-- C6. `evaluate` is a function of the formula and of the values bound to the
names the formula references: two bindings that agree on the coefficient and
base of every term and on the offset give the same outcome, the same number or
the same failure (in particular two evaluations on the same bindings do). -/
theorem evaluate_depends_on_referenced_names (f : Formula) (b b2 : Bindings)
    (hterms : ∀ t ∈ f.terms, b t.coefficient = b2 t.coefficient ∧ b t.base = b2 t.base)
    (hoffset : b f.offset = b2 f.offset) :
    evaluate f b = evaluate f b2 := by
  have hall : f.names.all (fun n => (b n).isSome) = f.names.all (fun n => (b2 n).isSome) := by
    rw [Bool.eq_iff_iff, names_all_iff, names_all_iff, hoffset]
    constructor
    · rintro ⟨h1, h2⟩
      exact ⟨fun t ht => by rw [← (hterms t ht).1, ← (hterms t ht).2]; exact h1 t ht, h2⟩
    · rintro ⟨h1, h2⟩
      exact ⟨fun t ht => by rw [(hterms t ht).1, (hterms t ht).2]; exact h1 t ht, h2⟩
  unfold evaluate
  rw [hall, sumTerms_congr b b2 f.terms 0 hterms]
  simp only [fetch, hoffset]

/-- C6 at a concrete input: the bindings `{a:2, x:3, d:1}` and
`{a:2, x:3, d:1, q:5}` differ on `q`, which the formula `[(a, x, 1)]` with
offset `d` does not reference, and give the same outcome. -/
theorem evaluate_depends_on_referenced_names_witness :
    exampleBindings "q" ≠ (fun n => if n = "q" then some 5 else exampleBindings n) "q" ∧
    evaluate exampleFormula exampleBindings =
      evaluate exampleFormula (fun n => if n = "q" then some 5 else exampleBindings n) :=
  ⟨by decide,
    evaluate_depends_on_referenced_names exampleFormula exampleBindings _ (by decide) (by decide)⟩

end TinyClaude
